import Mathlib

/-!
Verification of the KNN classifier implemented in `src/main.rs`.

The embedding models `f64` values as real numbers (`ℝ`), `Vec<f64>` as
`List ℝ`, and `String` labels as Lean `String`s.  A Rust panic (an
`unwrap` on `None`) is modelled by an `Option` result being `none`.

The `BinaryHeap<Vizinho>` with the reversed `Ord` implementation pops
neighbours in ascending order of distance; the order among neighbours
with equal distances is unspecified by `BinaryHeap`, and is modelled
here as first-pushed-first (the pushed list is scanned left to right
for the minimum).  The `HashMap` tally built with the `entry`/`or_insert`
API is modelled as an association list in first-insertion order, and
`max_by_key` follows the Rust iterator contract: among equally maximal
entries the last one in iteration order is returned.
-/

/-- The `Ponto` struct of `src/main.rs`: a feature vector and a label. -/
structure Ponto where
  caracteristicas : List ℝ
  rotulo : String

/-- `distancia_euclidiana` from `src/main.rs`: zips the two feature
vectors, maps each pair to its squared difference, sums, and takes the
square root.  `zip` stops at the shorter vector, exactly as Rust's
`Iterator::zip` does. -/
noncomputable def distancia_euclidiana (ponto1 ponto2 : Ponto) : ℝ :=
  Real.sqrt (((ponto1.caracteristicas.zip ponto2.caracteristicas).map
    (fun ab => (ab.1 - ab.2) ^ 2)).sum)

/-- The squared-difference sum over a zip of two lists equals the sum,
over the indices of the common prefix, of the squared differences. -/
lemma sum_zip_sq (xs : List ℝ) : ∀ ys : List ℝ,
    ((xs.zip ys).map (fun ab => (ab.1 - ab.2) ^ 2)).sum =
      ∑ i ∈ Finset.range (min xs.length ys.length),
        (xs.getD i 0 - ys.getD i 0) ^ 2 := by
  induction xs with
  | nil => intro ys; simp
  | cons x xs ih =>
    intro ys
    cases ys with
    | nil => simp
    | cons y ys =>
      simp only [List.zip_cons_cons, List.map_cons, List.sum_cons,
        List.length_cons]
      rw [ih ys]
      rw [show min (xs.length + 1) (ys.length + 1) = min xs.length ys.length + 1 by omega]
      rw [Finset.sum_range_succ']
      simp [List.getD_cons_succ, List.getD_cons_zero, add_comm]

/-- Claim C7: the Euclidean distance is symmetric. -/
theorem distancia_symm (a b : Ponto) :
    distancia_euclidiana a b = distancia_euclidiana b a := by
  unfold distancia_euclidiana
  rw [sum_zip_sq, sum_zip_sq]
  rw [show min b.caracteristicas.length a.caracteristicas.length =
      min a.caracteristicas.length b.caracteristicas.length by omega]
  congr 1
  apply Finset.sum_congr rfl
  intro i _
  ring

/-- Claim C8: the distance from any point to itself is zero. -/
theorem distancia_self (p : Ponto) : distancia_euclidiana p p = 0 := by
  unfold distancia_euclidiana
  rw [sum_zip_sq]
  simp

/-- Claim C1, counterexample: on the mismatched vectors `[1,2]` and
`[1,2,3]` the distance function does not fail; it silently returns the
numeric result `0`, computed over the common prefix only. -/
theorem distancia_mismatch_counterexample :
    distancia_euclidiana ⟨[1, 2], "x"⟩ ⟨[1, 2, 3], "y"⟩ = 0 := by
  unfold distancia_euclidiana
  norm_num [List.zip, List.zipWith]

/-- Claim C1, amended: for feature vectors of differing lengths the
distance is computed over only the common prefix (the first
`min len_a len_b` coordinates); the function never fails and never pads. -/
theorem distancia_truncates (a b : Ponto) :
    distancia_euclidiana a b =
      Real.sqrt (∑ i ∈ Finset.range
          (min a.caracteristicas.length b.caracteristicas.length),
        (a.caracteristicas.getD i 0 - b.caracteristicas.getD i 0) ^ 2) := by
  unfold distancia_euclidiana
  rw [sum_zip_sq]

/-- Claim C3: for equal-length feature vectors the distance is the
Euclidean (L2) norm of the element-wise difference, the square root of
the sum over `0..n` of the squared coordinate differences (real numbers
model the IEEE doubles of the source). -/
theorem distancia_euclidiana_spec (a b : Ponto)
    (h : a.caracteristicas.length = b.caracteristicas.length) :
    distancia_euclidiana a b =
      Real.sqrt (∑ i ∈ Finset.range a.caracteristicas.length,
        (a.caracteristicas.getD i 0 - b.caracteristicas.getD i 0) ^ 2) := by
  unfold distancia_euclidiana
  rw [sum_zip_sq]
  rw [show min a.caracteristicas.length b.caracteristicas.length =
      a.caracteristicas.length by omega]

/-- Witness for C3 at the concrete points `([3], "x")` and `([0], "y")`. -/
theorem distancia_euclidiana_spec_witness :
    distancia_euclidiana ⟨[3], "x"⟩ ⟨[0], "y"⟩ =
      Real.sqrt (∑ i ∈ Finset.range (List.length [(3 : ℝ)]),
        ((List.getD [(3 : ℝ)] i 0) - (List.getD [(0 : ℝ)] i 0)) ^ 2) :=
  distancia_euclidiana_spec ⟨[3], "x"⟩ ⟨[0], "y"⟩ rfl

/-- The `Vizinho` struct of `src/main.rs`: a computed distance paired
with the label of the training point it came from. -/
structure Vizinho where
  distancia : ℝ
  rotulo : String

/-- One pop of the min-oriented priority structure: `BinaryHeap` with
the reversed `Ord` of `Vizinho` yields the neighbour of smallest
distance.  Among equal distances the order is unspecified in the
source; modelled as the first-pushed minimal element. -/
noncomputable def popMin : List Vizinho → Option (Vizinho × List Vizinho)
  | [] => none
  | v :: vs =>
    match popMin vs with
    | none => some (v, [])
    | some (w, rest) =>
      if v.distancia ≤ w.distancia then some (v, w :: rest)
      else some (w, v :: rest)

/-- The `for _ in 0..k` pop loop of `knn`: collects up to `k`
neighbours in pop order; pops from an exhausted structure are skipped
(`if let Some(..)`), so fewer than `k` may be collected. -/
noncomputable def popK : ℕ → List Vizinho → List Vizinho
  | 0, _ => []
  | n + 1, hs =>
    match popMin hs with
    | none => []
    | some (v, rest) => v :: popK n rest

/-- One `*contador.entry(rotulo).or_insert(0) += 1` step on the tally,
modelled as an association list in first-insertion order. -/
def bump (rotulo : String) : List (String × ℕ) → List (String × ℕ)
  | [] => [(rotulo, 1)]
  | (r, c) :: rest =>
    if r = rotulo then (r, c + 1) :: rest else (r, c) :: bump rotulo rest

/-- The label-frequency loop of `knn`: fold the collected labels into
the tally. -/
def contarRotulos (rotulos : List String) : List (String × ℕ) :=
  rotulos.foldl (fun acc r => bump r acc) []

/-- Rust's `Iterator::max_by_key` on the tally: among equally maximal
entries the last one in iteration order is returned. -/
def max_by_key_count (l : List (String × ℕ)) : Option (String × ℕ) :=
  l.foldl (fun acc e =>
    match acc with
    | none => some e
    | some m => if e.2 ≥ m.2 then some e else some m) none

/-- The `knn` function of `src/main.rs`.  Pushes one `Vizinho` per
training point (distance from the test point), pops up to `k` of them
in ascending-distance order, tallies the popped labels, and returns
the most frequent label.  The final `.unwrap()` panics when the tally
is empty; the panic is modelled as `none`. -/
noncomputable def knn (treinamento : List Ponto) (ponto_teste : Ponto)
    (k : ℕ) : Option String :=
  let vizinhos := treinamento.map
    (fun pt => Vizinho.mk (distancia_euclidiana ponto_teste pt) pt.rotulo)
  let k_vizinhos_rotulos := (popK k vizinhos).map Vizinho.rotulo
  let contador_rotulos := contarRotulos k_vizinhos_rotulos
  (max_by_key_count contador_rotulos).map Prod.fst

/-- A pop from the empty structure yields nothing. -/
lemma popMin_nil : popMin [] = none := rfl

/-- A pop from a non-empty structure always yields a neighbour. -/
lemma popMin_cons_isSome (v : Vizinho) (vs : List Vizinho) :
    (popMin (v :: vs)).isSome := by
  rw [popMin]
  rcases h : popMin vs with _ | ⟨w, rest⟩
  · simp
  · by_cases hle : v.distancia ≤ w.distancia <;> simp [hle]

/-- `popMin` returns `none` only on the empty list. -/
lemma popMin_eq_none {hs : List Vizinho} (h : popMin hs = none) : hs = [] := by
  cases hs with
  | nil => rfl
  | cons v vs =>
    have := popMin_cons_isSome v vs
    rw [h] at this
    simp at this

/-- A pop removes exactly one element. -/
lemma popMin_length : ∀ {hs : List Vizinho} {v : Vizinho}
    {rest : List Vizinho}, popMin hs = some (v, rest) →
    hs.length = rest.length + 1 := by
  intro hs
  induction hs with
  | nil => intro v rest h; simp [popMin] at h
  | cons x xs ih =>
    intro v rest h
    rw [popMin] at h
    rcases hx : popMin xs with _ | ⟨w, wrest⟩ <;> rw [hx] at h <;>
      dsimp only at h
    · have hnil := popMin_eq_none hx
      simp only [Option.some.injEq, Prod.mk.injEq] at h
      subst hnil
      simp [← h.2]
    · have hlen := ih hx
      by_cases hle : x.distancia ≤ w.distancia
      · rw [if_pos hle] at h
        simp only [Option.some.injEq, Prod.mk.injEq] at h
        simp [← h.2, hlen]
      · rw [if_neg hle] at h
        simp only [Option.some.injEq, Prod.mk.injEq] at h
        simp [← h.2, hlen]

/-- Unfolding equation for a pop-loop iteration on a non-empty structure. -/
lemma popK_succ (n : ℕ) {hs : List Vizinho} {v : Vizinho}
    {rest : List Vizinho} (h : popMin hs = some (v, rest)) :
    popK (n + 1) hs = v :: popK n rest := by
  rw [popK, h]

/-- The pop loop on the empty structure collects nothing, for any `k`. -/
lemma popK_nil : ∀ k : ℕ, popK k [] = []
  | 0 => rfl
  | _ + 1 => by rw [popK, popMin_nil]

/-- Once `k` covers the whole structure, extra iterations of the pop
loop are no-ops: the loop collects exactly the `length` many elements. -/
lemma popK_of_le : ∀ (n : ℕ) (hs : List Vizinho), hs.length ≤ n →
    popK n hs = popK hs.length hs := by
  intro n
  induction n with
  | zero =>
    intro hs h
    rw [List.length_eq_zero.mp (Nat.le_zero.mp h)]
    rfl
  | succ n ih =>
    intro hs h
    cases hs with
    | nil => rw [popK_nil, popK_nil]
    | cons x xs =>
      rcases hp : popMin (x :: xs) with _ | ⟨v, rest⟩
      · exact absurd (popMin_eq_none hp) (by simp)
      · have hlen : xs.length + 1 = rest.length + 1 := popMin_length hp
        rw [popK_succ n hp, List.length_cons, popK_succ xs.length hp]
        rw [ih rest (by simp at h; omega)]
        rw [show xs.length = rest.length by omega]

/-- Claim C10: with `k = 0` the pop loop collects zero labels, the
tally is empty, and `knn` panics on the `unwrap` of the empty maximum
(modelled as `none`): no label and no typed error is returned. -/
theorem knn_k_zero (treinamento : List Ponto) (ponto_teste : Ponto) :
    popK 0 (treinamento.map
        (fun pt => Vizinho.mk (distancia_euclidiana ponto_teste pt)
          pt.rotulo)) = [] ∧
    contarRotulos [] = [] ∧
    knn treinamento ponto_teste 0 = none :=
  ⟨rfl, rfl, rfl⟩

/-- Claim C2, counterexample: on the empty training set `knn` panics
(modelled as `none`); it does not return a typed `EmptyTrainingSet`
error value and returns no label. -/
theorem knn_empty_counterexample : knn [] ⟨[1, 2], "q"⟩ 1 = none := rfl

/-- Claim C2, amended: for every query point and every `k`, `knn` on
the empty training set reaches the `unwrap` of the empty tally and
panics (modelled as `none`); it never returns a label silently. -/
theorem knn_empty (ponto_teste : Ponto) (k : ℕ) :
    knn [] ponto_teste k = none := by
  cases k <;> rfl

/-- Claim C4: when `k` strictly exceeds the training-set size, `knn`
returns the same label as with `k` equal to the training-set size:
every training point is used, and the extra pops on the exhausted
structure are skipped without special-casing. -/
theorem knn_clamp (treinamento : List Ponto) (ponto_teste : Ponto)
    (k : ℕ) (h1 : treinamento ≠ []) (h2 : treinamento.length < k) :
    knn treinamento ponto_teste k =
      knn treinamento ponto_teste treinamento.length := by
  unfold knn
  dsimp only
  rw [popK_of_le k _ (by rw [List.length_map]; omega)]
  rw [popK_of_le treinamento.length _ (by rw [List.length_map])]

/-- Witness for C4: a one-point training set queried with `k = 5`. -/
theorem knn_clamp_witness :
    ([(⟨[1], "A"⟩ : Ponto)] ≠ []) ∧
      List.length [(⟨[1], "A"⟩ : Ponto)] < 5 ∧
      knn [⟨[1], "A"⟩] ⟨[0], "q"⟩ 5 =
        knn [⟨[1], "A"⟩] ⟨[0], "q"⟩ (List.length [(⟨[1], "A"⟩ : Ponto)]) :=
  ⟨by simp, by simp, knn_clamp [⟨[1], "A"⟩] ⟨[0], "q"⟩ 5 (by simp) (by simp)⟩

/-- A tally update never empties the tally. -/
lemma bump_ne_nil (r : String) (l : List (String × ℕ)) : bump r l ≠ [] := by
  cases l with
  | nil => simp [bump]
  | cons e rest =>
    rcases e with ⟨s, c⟩
    rw [bump]
    split <;> simp

/-- Folding tally updates over any label list preserves non-emptiness. -/
lemma foldl_bump_ne_nil (rs : List String) :
    ∀ acc : List (String × ℕ), acc ≠ [] →
      rs.foldl (fun acc r => bump r acc) acc ≠ [] := by
  induction rs with
  | nil => intro acc h; simpa using h
  | cons r rs ih =>
    intro acc h
    rw [List.foldl_cons]
    exact ih _ (bump_ne_nil r acc)

/-- The tally of a non-empty label list is non-empty. -/
lemma contarRotulos_ne_nil {rs : List String} (h : rs ≠ []) :
    contarRotulos rs ≠ [] := by
  cases rs with
  | nil => exact absurd rfl h
  | cons r rs =>
    unfold contarRotulos
    rw [List.foldl_cons]
    exact foldl_bump_ne_nil rs _ (bump_ne_nil r [])

/-- Once the `max_by_key` fold holds a candidate it never loses it. -/
lemma max_fold_some (l : List (String × ℕ)) :
    ∀ m : String × ℕ,
      ∃ m', l.foldl (fun acc e =>
          match acc with
          | none => some e
          | some m => if e.2 ≥ m.2 then some e else some m) (some m) =
        some m' := by
  induction l with
  | nil => intro m; exact ⟨m, rfl⟩
  | cons e l ih =>
    intro m
    rw [List.foldl_cons]
    dsimp only
    by_cases h : e.2 ≥ m.2
    · rw [if_pos h]; exact ih e
    · rw [if_neg h]; exact ih m

/-- `max_by_key` on a non-empty tally yields an entry. -/
lemma max_by_key_count_isSome {l : List (String × ℕ)} (h : l ≠ []) :
    ∃ m, max_by_key_count l = some m := by
  cases l with
  | nil => exact absurd rfl h
  | cons e l =>
    unfold max_by_key_count
    rw [List.foldl_cons]
    exact max_fold_some l e

/-- Claim C9: on a non-empty training set with `k ≥ 1`, `knn` totally
returns a label: neither the comparison `unwrap` (unreachable in the
real-number model, where every distance is comparable, i.e. non-NaN)
nor the final `unwrap` of the maximum of the non-empty tally can
panic. -/
theorem knn_total (treinamento : List Ponto) (ponto_teste : Ponto)
    (k : ℕ) (h1 : treinamento ≠ []) (hk : 1 ≤ k) :
    ∃ rotulo, knn treinamento ponto_teste k = some rotulo := by
  obtain ⟨m, rfl⟩ : ∃ m, k = m + 1 := ⟨k - 1, by omega⟩
  unfold knn
  dsimp only
  rcases hp : popMin (treinamento.map
      (fun pt => Vizinho.mk (distancia_euclidiana ponto_teste pt)
        pt.rotulo)) with _ | ⟨v, rest⟩
  · exact absurd (List.map_eq_nil_iff.mp (popMin_eq_none hp)) h1
  · rw [popK_succ m hp, List.map_cons]
    obtain ⟨mx, hmx⟩ := max_by_key_count_isSome
      (contarRotulos_ne_nil (List.cons_ne_nil v.rotulo
        (List.map Vizinho.rotulo (popK m rest))))
    exact ⟨mx.1, by rw [hmx]; rfl⟩

/-- Witness for C9: a one-point training set with `k = 1`. -/
theorem knn_total_witness :
    ([(⟨[0], "A"⟩ : Ponto)] ≠ []) ∧ 1 ≤ 1 ∧
      ∃ rotulo, knn [⟨[0], "A"⟩] ⟨[1], "q"⟩ 1 = some rotulo :=
  ⟨by simp, le_refl 1, knn_total [⟨[0], "A"⟩] ⟨[1], "q"⟩ 1 (by simp) (le_refl 1)⟩

/-- The popped neighbour is a member of the structure and has minimal
distance among all members. -/
lemma popMin_min : ∀ {hs : List Vizinho} {v : Vizinho}
    {rest : List Vizinho}, popMin hs = some (v, rest) →
    v ∈ hs ∧ ∀ w ∈ hs, v.distancia ≤ w.distancia := by
  intro hs
  induction hs with
  | nil => intro v rest h; simp [popMin] at h
  | cons x xs ih =>
    intro v rest h
    rw [popMin] at h
    rcases hx : popMin xs with _ | ⟨w, wrest⟩ <;> rw [hx] at h <;>
      dsimp only at h
    · have hnil := popMin_eq_none hx
      simp only [Option.some.injEq, Prod.mk.injEq] at h
      obtain ⟨rfl, rfl⟩ := h
      subst hnil
      exact ⟨by simp, by intro u hu; simp at hu; rw [hu]⟩
    · obtain ⟨hw_mem, hw_min⟩ := ih hx
      by_cases hle : x.distancia ≤ w.distancia
      · rw [if_pos hle] at h
        simp only [Option.some.injEq, Prod.mk.injEq] at h
        obtain ⟨rfl, rfl⟩ := h
        refine ⟨by simp, ?_⟩
        intro u hu
        rcases List.mem_cons.mp hu with rfl | hu
        · exact le_refl _
        · exact le_trans hle (hw_min u hu)
      · rw [if_neg hle] at h
        simp only [Option.some.injEq, Prod.mk.injEq] at h
        obtain ⟨rfl, rfl⟩ := h
        refine ⟨List.mem_cons_of_mem x hw_mem, ?_⟩
        intro u hu
        rcases List.mem_cons.mp hu with rfl | hu
        · exact le_of_lt (lt_of_not_le hle)
        · exact hw_min u hu

/-- Claim C5: with `k = 1`, on a training set having a unique point of
strictly minimum distance to the query, `knn` returns exactly that
point's label. -/
theorem knn_k1_nearest (treinamento : List Ponto) (ponto_teste : Ponto)
    (i : ℕ) (hi : i < treinamento.length)
    (hmin : ∀ j, (hj : j < treinamento.length) → j ≠ i →
      distancia_euclidiana ponto_teste treinamento[i] <
        distancia_euclidiana ponto_teste treinamento[j]) :
    knn treinamento ponto_teste 1 = some treinamento[i].rotulo := by
  unfold knn
  dsimp only
  rcases hp : popMin (treinamento.map
      (fun pt => Vizinho.mk (distancia_euclidiana ponto_teste pt)
        pt.rotulo)) with _ | ⟨v, rest⟩
  · have := List.map_eq_nil_iff.mp (popMin_eq_none hp)
    rw [this] at hi
    simp at hi
  · obtain ⟨hv_mem, hv_min⟩ := popMin_min hp
    obtain ⟨j, hj, hvj⟩ := List.mem_iff_getElem.mp hv_mem
    have hjlen : j < treinamento.length := by simpa using hj
    have hv_eq : v = Vizinho.mk
        (distancia_euclidiana ponto_teste treinamento[j])
        treinamento[j].rotulo := by
      rw [← hvj]
      simp
    have hji : j = i := by
      by_contra hne
      have hmem : Vizinho.mk
          (distancia_euclidiana ponto_teste treinamento[i])
          treinamento[i].rotulo ∈ treinamento.map
            (fun pt => Vizinho.mk (distancia_euclidiana ponto_teste pt)
              pt.rotulo) := by
        apply List.mem_map_of_mem
        exact List.getElem_mem hi
      have h1 := hv_min _ hmem
      rw [hv_eq] at h1
      dsimp only at h1
      exact absurd h1 (not_le_of_lt (hmin j hjlen hne))
    subst hji
    rw [popK_succ 0 hp]
    show some v.rotulo = _
    rw [hv_eq]

/-- Witness for C5: two training points, the first strictly closer. -/
theorem knn_k1_nearest_witness :
    0 < List.length [(⟨[0], "A"⟩ : Ponto), ⟨[5], "B"⟩] ∧
      knn [⟨[0], "A"⟩, ⟨[5], "B"⟩] ⟨[1], "q"⟩ 1 =
        some ([(⟨[0], "A"⟩ : Ponto), ⟨[5], "B"⟩][0].rotulo) := by
  refine ⟨by simp, knn_k1_nearest [⟨[0], "A"⟩, ⟨[5], "B"⟩] ⟨[1], "q"⟩ 0
    (by simp) ?_⟩
  intro j hj hne
  simp only [List.length_cons, List.length_nil] at hj
  have hj1 : j = 1 := by omega
  subst hj1
  show distancia_euclidiana ⟨[1], "q"⟩ ⟨[0], "A"⟩ <
    distancia_euclidiana ⟨[1], "q"⟩ ⟨[5], "B"⟩
  unfold distancia_euclidiana
  have h1 : (([(1 : ℝ)].zip [(0 : ℝ)]).map
      (fun ab => (ab.1 - ab.2) ^ 2)).sum = 1 := by
    norm_num [List.zip, List.zipWith]
  have h2 : (([(1 : ℝ)].zip [(5 : ℝ)]).map
      (fun ab => (ab.1 - ab.2) ^ 2)).sum = 16 := by
    norm_num [List.zip, List.zipWith]
  rw [h1, h2]
  have := Real.sqrt_lt_sqrt (by norm_num : (0 : ℝ) ≤ 1)
    (by norm_num : (1 : ℝ) < 16)
  exact this

/-- The square root of a recognised perfect square. -/
lemma sqrt_eq_of_sq {x y : ℝ} (hy : 0 ≤ y) (h : x = y ^ 2) :
    Real.sqrt x = y := by
  rw [h]
  exact Real.sqrt_sq hy

/-- Claim C6: on the training set `[([1,1],"A"), ([1,2],"A"),
([9,9],"B")]` and query `[1, 1.5]`, `knn` with `k = 1` returns `"A"`;
with `k = 3` the tally is `A ↦ 2, B ↦ 1` and the result is `"A"`. -/
theorem knn_concrete_scenario :
    knn [⟨[1, 1], "A"⟩, ⟨[1, 2], "A"⟩, ⟨[9, 9], "B"⟩]
        ⟨[1, 1.5], "?"⟩ 1 = some "A" ∧
    contarRotulos ((popK 3 ([(⟨[1, 1], "A"⟩ : Ponto), ⟨[1, 2], "A"⟩,
        ⟨[9, 9], "B"⟩].map
        (fun pt => Vizinho.mk (distancia_euclidiana ⟨[1, 1.5], "?"⟩ pt)
          pt.rotulo))).map Vizinho.rotulo) = [("A", 2), ("B", 1)] ∧
    knn [⟨[1, 1], "A"⟩, ⟨[1, 2], "A"⟩, ⟨[9, 9], "B"⟩]
        ⟨[1, 1.5], "?"⟩ 3 = some "A" := by
  have e1 : distancia_euclidiana ⟨[1, 1.5], "?"⟩ ⟨[1, 1], "A"⟩ =
      1 / 2 := by
    unfold distancia_euclidiana
    apply sqrt_eq_of_sq (by norm_num)
    norm_num [List.zip, List.zipWith]
  have e2 : distancia_euclidiana ⟨[1, 1.5], "?"⟩ ⟨[1, 2], "A"⟩ =
      1 / 2 := by
    unfold distancia_euclidiana
    apply sqrt_eq_of_sq (by norm_num)
    norm_num [List.zip, List.zipWith]
  have e3 : distancia_euclidiana ⟨[1, 1.5], "?"⟩ ⟨[9, 9], "B"⟩ =
      Real.sqrt (481 / 4) := by
    unfold distancia_euclidiana
    congr 1
    norm_num [List.zip, List.zipWith]
  have hcmp : (1 : ℝ) / 2 ≤ Real.sqrt (481 / 4) := by
    rw [show (1 : ℝ) / 2 = Real.sqrt ((1 / 2) ^ 2) from
      (Real.sqrt_sq (by norm_num)).symm]
    exact Real.sqrt_le_sqrt (by norm_num)
  have p3 : popMin [Vizinho.mk (Real.sqrt (481 / 4)) "B"] =
      some (Vizinho.mk (Real.sqrt (481 / 4)) "B", []) := by
    rw [popMin, popMin_nil]
  have p2 : popMin [Vizinho.mk ((1 : ℝ) / 2) "A",
      Vizinho.mk (Real.sqrt (481 / 4)) "B"] =
      some (Vizinho.mk ((1 : ℝ) / 2) "A",
        [Vizinho.mk (Real.sqrt (481 / 4)) "B"]) := by
    rw [popMin, p3]
    dsimp only
    rw [if_pos hcmp]
  have p1 : popMin [Vizinho.mk ((1 : ℝ) / 2) "A",
      Vizinho.mk ((1 : ℝ) / 2) "A",
      Vizinho.mk (Real.sqrt (481 / 4)) "B"] =
      some (Vizinho.mk ((1 : ℝ) / 2) "A",
        [Vizinho.mk ((1 : ℝ) / 2) "A",
          Vizinho.mk (Real.sqrt (481 / 4)) "B"]) := by
    rw [popMin, p2]
    dsimp only
    rw [if_pos (le_refl ((1 : ℝ) / 2))]
  refine ⟨?_, ?_, ?_⟩
  · unfold knn
    dsimp only
    simp only [List.map_cons, List.map_nil]
    rw [e1, e2, e3]
    rw [popK_succ 0 p1]
    rfl
  · simp only [List.map_cons, List.map_nil]
    rw [e1, e2, e3]
    rw [popK_succ 2 p1, popK_succ 1 p2, popK_succ 0 p3]
    rfl
  · unfold knn
    dsimp only
    simp only [List.map_cons, List.map_nil]
    rw [e1, e2, e3]
    rw [popK_succ 2 p1, popK_succ 1 p2, popK_succ 0 p3]
    rfl
